import Mathlib

/-!
Shallow embedding of the container-validation core of this repository:
`src/input/iterator.rs` (length bookkeeping, fail-fast vs collect-all
iteration drivers) and `src/validators/set.rs` (the Set validator).

Host-language values are abstracted as type parameters; the output
container of the generic drivers is instantiated as a Lean list with an
append writer, matching the injected writer/length callbacks of the
source. Machine `usize` lengths are modelled as `Nat` (lengths only grow
by one per element, so overflow is immaterial to the claims).
-/

namespace PydanticCore

/-- Error kinds carried by a line error (`errors::ErrorType`). Only
`TooShort` is constructed by the embedded code (`IterableValidationChecks::finish`);
all other kinds produced by item validators are abstracted as `other`
with a numeric tag. -/
inductive ErrorType where
  | tooShort (field_type : String) (min_length : Nat) (actual_length : Nat)
  | other (tag : Nat)
deriving DecidableEq, Repr

/-- One located validation failure (`errors::ValLineError`): an error kind
plus the location path of index segments, outermost first. The source also
stores the offending input value for diagnostics; that is not needed by
any claim and is omitted. -/
structure ValLineError where
  error_type : ErrorType
  location : List Nat
deriving DecidableEq, Repr

/-- `errors::ValError`: either a collection of line errors, the Omit
signal, or a fatal internal error. -/
inductive ValError where
  | lineErrors (line_errors : List ValLineError)
  | omit
  | internalErr (tag : Nat)
deriving DecidableEq, Repr

/-- `ValLineError::with_outer_location`: prepend an index segment. -/
def ValLineError.with_outer_location (e : ValLineError) (loc : Nat) : ValLineError :=
  { e with location := loc :: e.location }

/-- `ValError::with_outer_location`: prepend the segment to every line
error; Omit and internal errors are unchanged. -/
def ValError.with_outer_location (e : ValError) (loc : Nat) : ValError :=
  match e with
  | ValError.lineErrors line_errors =>
      ValError.lineErrors (line_errors.map (fun le => le.with_outer_location loc))
  | e2 => e2

/-- `input::iterator::calculate_output_init_capacity`. -/
def calculate_output_init_capacity (iterator_size : Option Nat) (max_length : Option Nat) : Nat :=
  match iterator_size, max_length with
  | none, _ => 0
  | some l, none => l
  | some l, some r => min l r

/-- `input::iterator::LengthConstraints`. -/
structure LengthConstraints where
  min_length : Nat
  max_length : Option Nat
  max_input_length : Option Nat
deriving DecidableEq, Repr

/-- `input::iterator::IterableValidationChecks`: per-container validation
bookkeeping. -/
structure IterableValidationChecks where
  input_length : Nat
  output_length : Nat
  fail_fast : Bool
  min_length : Nat
  max_length : Option Nat
  max_input_length : Option Nat
  field_type : String
  errors : List ValLineError
deriving DecidableEq, Repr

namespace IterableValidationChecks

/-- `IterableValidationChecks::new`. -/
def new (fail_fast : Bool) (length_constraints : LengthConstraints)
    (field_type : String) : IterableValidationChecks :=
  { input_length := 0
    output_length := 0
    fail_fast := fail_fast
    min_length := length_constraints.min_length
    max_length := length_constraints.max_length
    max_input_length := length_constraints.max_input_length
    field_type := field_type
    errors := [] }

/-- `IterableValidationChecks::add_error`. -/
def add_error (c : IterableValidationChecks) (error : ValLineError) :
    IterableValidationChecks :=
  { c with errors := c.errors ++ [error] }

/-- `IterableValidationChecks::check_max_length`, exactly as written in the
source: both branches of the comparison return `Ok(())`. -/
def check_max_length (c : IterableValidationChecks)
    (current_length : Nat) (max_length : Nat) : Except ValError Unit :=
  if max_length < current_length then
    Except.ok ()
  else
    Except.ok ()

/-- `IterableValidationChecks::filter_validation_result`. The `&mut self`
receiver is made explicit: the result pairs the updated state with the
returned `ValResult<Option<R>>` (an error from the trailing max-length
checks supersedes `res`, as the source's `?` operator does). -/
def filter_validation_result {R : Type} (c : IterableValidationChecks)
    (result : Except ValError R) :
    IterableValidationChecks × Except ValError (Option R) :=
  let step :=
    match result with
    | Except.ok v => (c, Except.ok (some v))
    | Except.error (ValError.lineErrors line_errors) =>
        if c.fail_fast then
          (c, Except.error (ValError.lineErrors line_errors))
        else
          ({ c with errors := c.errors ++ line_errors }, Except.ok none)
    | Except.error ValError.omit => (c, Except.ok none)
    | Except.error e => (c, Except.error e)
  let c2 := { step.1 with input_length := step.1.input_length + 1 }
  let chk1 :=
    match c2.max_input_length with
    | some max_length => c2.check_max_length c2.input_length max_length
    | none => Except.ok ()
  match chk1 with
  | Except.error e => (c2, Except.error e)
  | Except.ok _ =>
    let chk2 :=
      match c2.max_length with
      | some max_length => c2.check_max_length (c2.output_length + c2.errors.length) max_length
      | none => Except.ok ()
    match chk2 with
    | Except.error e => (c2, Except.error e)
    | Except.ok _ => (c2, step.2)

/-- `IterableValidationChecks::check_output_length`. -/
def check_output_length (c : IterableValidationChecks) (output_length : Nat) :
    IterableValidationChecks × Except ValError Unit :=
  let c2 := { c with output_length := output_length }
  let chk :=
    match c2.max_length with
    | some max_length => c2.check_max_length (output_length + c2.errors.length) max_length
    | none => Except.ok ()
  match chk with
  | Except.error e => (c2, Except.error e)
  | Except.ok _ => (c2, Except.ok ())

/-- `IterableValidationChecks::finish`: appends a too-short error when the
output length is below `min_length`, then returns the aggregate (taken out
of the state, as `std::mem::take` does) if it is non-empty. -/
def finish (c : IterableValidationChecks) :
    IterableValidationChecks × Except ValError Unit :=
  let c2 :=
    if c.min_length > c.output_length then
      { c with errors := c.errors ++
          [{ error_type := ErrorType.tooShort c.field_type c.min_length c.output_length
             location := [] }] }
    else c
  if c2.errors.isEmpty then
    (c2, Except.ok ())
  else
    ({ c2 with errors := [] }, Except.error (ValError.lineErrors c2.errors))

end IterableValidationChecks

/-- Body of the `for` loop of `validate_infallible_iterator`, recursing on
the remaining elements; `idx` is the enumeration index of the next
element. -/
def validate_iter_loop {V A O : Type} (items_validator : V → Except ValError A)
    (write : O → A → Except ValError O) (len : O → Nat) :
    IterableValidationChecks → O → Nat → List V →
      Except ValError (IterableValidationChecks × O)
  | checks, output, _, [] => Except.ok (checks, output)
  | checks, output, idx, value :: rest =>
    let result := Except.mapError (fun e => ValError.with_outer_location e idx)
      (items_validator value)
    match checks.filter_validation_result result with
    | (checks2, Except.error e) => Except.error e
    | (checks2, Except.ok none) =>
        validate_iter_loop items_validator write len checks2 output (idx + 1) rest
    | (checks2, Except.ok (some v)) =>
        match write output v with
        | Except.error e => Except.error e
        | Except.ok output2 =>
          match checks2.check_output_length (len output2) with
          | (_, Except.error e) => Except.error e
          | (checks3, Except.ok _) =>
              validate_iter_loop items_validator write len checks3 output2 (idx + 1) rest

/-- `input::iterator::validate_infallible_iterator`: drive the item
validator over the host iterator (a list), then call `finish`. On success
the assembled output container is returned (the source mutates it through
`&mut O`). -/
def validate_infallible_iterator {V A O : Type} (checks : IterableValidationChecks)
    (iter : List V) (items_validator : V → Except ValError A) (output : O)
    (write : O → A → Except ValError O) (len : O → Nat) : Except ValError O :=
  match validate_iter_loop items_validator write len checks output 0 iter with
  | Except.error e => Except.error e
  | Except.ok (checks2, output2) =>
    match checks2.finish with
    | (_, Except.error e) => Except.error e
    | (_, Except.ok _) => Except.ok output2

/-- Body of the `for` loop of `validate_fallible_iterator`: each step first
unwraps a host-iterator-level error with `?` before validating. -/
def validate_fallible_loop {V A O : Type} (items_validator : V → Except ValError A)
    (write : O → A → Except ValError O) (len : O → Nat) :
    IterableValidationChecks → O → Nat → List (Except ValError V) →
      Except ValError (IterableValidationChecks × O)
  | checks, output, _, [] => Except.ok (checks, output)
  | checks, output, idx, item :: rest =>
    match item with
    | Except.error e => Except.error e
    | Except.ok value =>
      let result := Except.mapError (fun e => ValError.with_outer_location e idx)
        (items_validator value)
      match checks.filter_validation_result result with
      | (checks2, Except.error e) => Except.error e
      | (checks2, Except.ok none) =>
          validate_fallible_loop items_validator write len checks2 output (idx + 1) rest
      | (checks2, Except.ok (some v)) =>
          match write output v with
          | Except.error e => Except.error e
          | Except.ok output2 =>
            match checks2.check_output_length (len output2) with
            | (_, Except.error e) => Except.error e
            | (checks3, Except.ok _) =>
                validate_fallible_loop items_validator write len checks3 output2 (idx + 1) rest

/-- `input::iterator::validate_fallible_iterator`. -/
def validate_fallible_iterator {V A O : Type} (checks : IterableValidationChecks)
    (iter : List (Except ValError V)) (items_validator : V → Except ValError A)
    (output : O) (write : O → A → Except ValError O) (len : O → Nat) :
    Except ValError O :=
  match validate_fallible_loop items_validator write len checks output 0 iter with
  | Except.error e => Except.error e
  | Except.ok (checks2, output2) =>
    match checks2.finish with
    | (_, Except.error e) => Except.error e
    | (_, Except.ok _) => Except.ok output2

/-- The list-backed output container writer used to instantiate the
drivers in the theorems below: appending one element, never failing
(a concrete instance of the injected `write` callback). -/
def listWrite {A : Type} (output : List A) (v : A) : Except ValError (List A) :=
  Except.ok (output ++ [v])

/-! Specification-side observers of an item validator over an element
list, used to state the claims: the accepted outputs, the line errors the
collect-all mode accumulates (with the enumeration index prepended), and
the indices of the elements whose validation fails with line errors. -/

/-- The outputs of the elements the item validator accepts, in order. -/
def okOutputs {V A : Type} (items_validator : V → Except ValError A) :
    List V → List A
  | [] => []
  | v :: rest =>
    match items_validator v with
    | Except.ok a => a :: okOutputs items_validator rest
    | _ => okOutputs items_validator rest

/-- The line errors accumulated in collect-all mode, each tagged with the
index of the element that produced it, starting the enumeration at `idx`. -/
def collectErrs {V A : Type} (items_validator : V → Except ValError A) :
    Nat → List V → List ValLineError
  | _, [] => []
  | idx, v :: rest =>
    match items_validator v with
    | Except.error (ValError.lineErrors les) =>
        les.map (fun le => le.with_outer_location idx) ++
          collectErrs items_validator (idx + 1) rest
    | _ => collectErrs items_validator (idx + 1) rest

/-- The indices (enumeration starting at `idx`) of the elements whose
validation fails with line errors. -/
def invalidIdx {V A : Type} (items_validator : V → Except ValError A) :
    Nat → List V → List Nat
  | _, [] => []
  | idx, v :: rest =>
    match items_validator v with
    | Except.error (ValError.lineErrors _) =>
        idx :: invalidIdx items_validator (idx + 1) rest
    | _ => invalidIdx items_validator (idx + 1) rest

/-- A per-element result that is not a fatal internal error: the collect-all
loop recovers from it (success, omission, or line errors). -/
def nonFatal {A : Type} (r : Except ValError A) : Prop :=
  ∀ tag, r ≠ Except.error (ValError.internalErr tag)

/-! Embedding of `src/validators/set.rs`. This file belongs to an earlier
error API of the repository: errors carry an `ErrorKind` and a key/value
context. Host values are abstracted as a type parameter `Val`; the
`GenericSequence` view is a list of such values. -/

/-- Error kinds of `errors::ErrorKind` constructed by the Set validator. -/
inductive SetErrorKind where
  | setTooShort
  | setTooLong
deriving DecidableEq, Repr

/-- One line error of the Set validator's error API: a kind and the
structured context built by the `context!` macro-call (key/value pairs).
The stored input value reference is omitted as in `ValLineError` above. -/
structure SetLineError where
  kind : SetErrorKind
  context : List (String × Nat)
deriving DecidableEq, Repr

/-- The error side of `ValResult` in the Set validator's API;
`err_val_error!` produces a one-element line-error collection. -/
inductive SetValError where
  | lineErrors (line_errors : List SetLineError)
deriving DecidableEq, Repr

/-- `validators::set::SetValidator`: the built validator. The nested
`CombinedValidator` item validator is abstracted as a function on host
values. -/
structure SetValidator (Val : Type) where
  strict : Bool
  item_validator : Option (Val → Except SetValError Val)
  min_items : Option Nat
  max_items : Option Nat

/-- `GenericSequence::generic_len` on the list view. -/
def generic_len {Val : Type} (list : List Val) : Nat :=
  list.length

/-- Modelled from the spec: `GenericSequence::copy_to_vec` is not under
src/ (it lives in the input module); per the spec the no-item-schema path
assembles the output "from the accepted elements" with elements "copied
through without per-element validation", so it copies the sequence's
elements unchanged. -/
def copy_to_vec {Val : Type} (list : List Val) : List Val :=
  list

/-- Modelled from the spec: `GenericSequence::validate_to_vec` is not
under src/; per the spec it "validates every element against the item
validator" and collects the accepted outputs, propagating failure. -/
def validate_to_vec {Val : Type} (validator : Val → Except SetValError Val)
    (list : List Val) : Except SetValError (List Val) :=
  list.mapM validator

/-- Modelled from the spec: `PySet::new` is host-language set
construction, not under src/; building a set from a vector keeps exactly
the distinct elements, modelled as first-occurrence deduplication. Host
construction failure (`as_internal`) is not modelled: on a well-formed
vector it cannot fail. -/
def pySet_new {Val : Type} [DecidableEq Val] (list : List Val) : List Val :=
  list.dedup

/-- `SetValidator::_validation_logic`, lines 81-90: the early raw-length
rejection against `min_items`. -/
def check_min_items {Val : Type} (self : SetValidator Val) (length : Nat) :
    Except SetValError Unit :=
  match self.min_items with
  | some min_length =>
    if length < min_length then
      Except.error (SetValError.lineErrors
        [{ kind := SetErrorKind.setTooShort, context := [("min_length", min_length)] }])
    else Except.ok ()
  | none => Except.ok ()

/-- `SetValidator::_validation_logic`, lines 91-99: the early raw-length
rejection against `max_items`. -/
def check_max_items {Val : Type} (self : SetValidator Val) (length : Nat) :
    Except SetValError Unit :=
  match self.max_items with
  | some max_length =>
    if length > max_length then
      Except.error (SetValError.lineErrors
        [{ kind := SetErrorKind.setTooLong, context := [("max_length", max_length)] }])
    else Except.ok ()
  | none => Except.ok ()

/-- `SetValidator::_validation_logic`: raw-length checks first, then
per-element validation (or a plain copy when no item schema is
configured), then assembly of the output set. -/
def SetValidator._validation_logic {Val : Type} [DecidableEq Val]
    (self : SetValidator Val) (list : List Val) : Except SetValError (List Val) :=
  let length := generic_len list
  match check_min_items self length with
  | Except.error e => Except.error e
  | Except.ok _ =>
    match check_max_items self length with
    | Except.error e => Except.error e
    | Except.ok _ =>
      match self.item_validator with
      | some validator =>
        match validate_to_vec validator list with
        | Except.error e => Except.error e
        | Except.ok output => Except.ok (pySet_new output)
      | none => Except.ok (pySet_new (copy_to_vec list))

/-! Helper lemmas: closed forms of the bookkeeping operations. -/

theorem check_max_length_eq (c : IterableValidationChecks) (a b : Nat) :
    c.check_max_length a b = Except.ok () := by
  unfold IterableValidationChecks.check_max_length
  split <;> rfl

theorem filter_ok {R : Type} (c : IterableValidationChecks) (v : R) :
    c.filter_validation_result (Except.ok v) =
      ({ c with input_length := c.input_length + 1 }, Except.ok (some v)) := by
  unfold IterableValidationChecks.filter_validation_result
  cases h1 : c.max_input_length <;> cases h2 : c.max_length <;>
    simp_all [check_max_length_eq]

theorem filter_omit {R : Type} (c : IterableValidationChecks) :
    c.filter_validation_result (R := R) (Except.error ValError.omit) =
      ({ c with input_length := c.input_length + 1 }, Except.ok none) := by
  unfold IterableValidationChecks.filter_validation_result
  cases h1 : c.max_input_length <;> cases h2 : c.max_length <;>
    simp_all [check_max_length_eq]

theorem filter_lineErrors_ff {R : Type} (c : IterableValidationChecks)
    (h : c.fail_fast = true) (les : List ValLineError) :
    c.filter_validation_result (R := R) (Except.error (ValError.lineErrors les)) =
      ({ c with input_length := c.input_length + 1 },
        Except.error (ValError.lineErrors les)) := by
  unfold IterableValidationChecks.filter_validation_result
  cases h1 : c.max_input_length <;> cases h2 : c.max_length <;>
    simp_all [check_max_length_eq]

theorem filter_lineErrors_collect {R : Type} (c : IterableValidationChecks)
    (h : c.fail_fast = false) (les : List ValLineError) :
    c.filter_validation_result (R := R) (Except.error (ValError.lineErrors les)) =
      ({ c with errors := c.errors ++ les, input_length := c.input_length + 1 },
        Except.ok none) := by
  unfold IterableValidationChecks.filter_validation_result
  cases h1 : c.max_input_length <;> cases h2 : c.max_length <;>
    simp_all [check_max_length_eq]

theorem check_output_length_eq (c : IterableValidationChecks) (n : Nat) :
    c.check_output_length n = ({ c with output_length := n }, Except.ok ()) := by
  unfold IterableValidationChecks.check_output_length
  cases h2 : c.max_length <;> simp_all [check_max_length_eq]

theorem with_outer_omit (idx : Nat) :
    ValError.with_outer_location ValError.omit idx = ValError.omit := rfl

theorem with_outer_internal (tag : Nat) (idx : Nat) :
    ValError.with_outer_location (ValError.internalErr tag) idx =
      ValError.internalErr tag := rfl

theorem with_outer_lineErrors (les : List ValLineError) (idx : Nat) :
    ValError.with_outer_location (ValError.lineErrors les) idx =
      ValError.lineErrors (les.map (fun le => le.with_outer_location idx)) := rfl

/-! Loop invariants of the infallible driver's `for` body. -/

theorem loop_omit {V A : Type} (iv : V → Except ValError A) (vs : List V) :
    ∀ (c : IterableValidationChecks) (out : List A) (idx : Nat),
      (∀ v ∈ vs, iv v = Except.error ValError.omit) →
      validate_iter_loop iv listWrite List.length c out idx vs =
        Except.ok ({ c with input_length := c.input_length + vs.length }, out) := by
  induction vs with
  | nil =>
    intro c out idx _
    simp [validate_iter_loop]
  | cons v rest ih =>
    intro c out idx h
    have hv : iv v = Except.error ValError.omit := h v (by simp)
    have hrest : ∀ u ∈ rest, iv u = Except.error ValError.omit :=
      fun u hu => h u (by simp [hu])
    simp only [validate_iter_loop, hv, Except.mapError, with_outer_omit, filter_omit]
    refine Eq.trans (ih _ _ _ hrest) ?_
    simp only [Except.ok.injEq, Prod.mk.injEq, IterableValidationChecks.mk.injEq,
      List.length_cons, and_true, true_and, eq_self_iff_true]
    all_goals omega

theorem loop_ff {V A : Type} (iv : V → Except ValError A)
    (les : List ValLineError) (bad : V) (rest : List V) (pre : List V) :
    ∀ (c : IterableValidationChecks) (out : List A) (idx : Nat),
      c.fail_fast = true →
      (∀ v ∈ pre, ∃ a, iv v = Except.ok a) →
      iv bad = Except.error (ValError.lineErrors les) →
      validate_iter_loop iv listWrite List.length c out idx (pre ++ bad :: rest) =
        Except.error (ValError.lineErrors
          (les.map (fun le => le.with_outer_location (idx + pre.length)))) := by
  induction pre with
  | nil =>
    intro c out idx hff _ hbad
    simp only [List.nil_append, validate_iter_loop, hbad, Except.mapError,
      with_outer_lineErrors, filter_lineErrors_ff c hff, List.length_nil,
      Nat.add_zero]
  | cons p pre2 ih =>
    intro c out idx hff hpre hbad
    obtain ⟨a, hp⟩ := hpre p (by simp)
    have hpre2 : ∀ v ∈ pre2, ∃ a, iv v = Except.ok a :=
      fun v hv => hpre v (by simp [hv])
    have harith : idx + 1 + pre2.length = idx + (p :: pre2).length := by
      simp only [List.length_cons]
      omega
    simp only [List.cons_append, validate_iter_loop, hp, Except.mapError, filter_ok,
      listWrite, check_output_length_eq]
    refine Eq.trans (ih _ _ _ hff hpre2 hbad) ?_
    rw [harith]

theorem loop_collect {V A : Type} (iv : V → Except ValError A) (vs : List V) :
    ∀ (c : IterableValidationChecks) (out : List A) (idx : Nat),
      c.fail_fast = false →
      c.output_length = out.length →
      (∀ v ∈ vs, nonFatal (iv v)) →
      validate_iter_loop iv listWrite List.length c out idx vs =
        Except.ok
          ({ c with
              input_length := c.input_length + vs.length,
              output_length := out.length + (okOutputs iv vs).length,
              errors := c.errors ++ collectErrs iv idx vs },
            out ++ okOutputs iv vs) := by
  induction vs with
  | nil =>
    intro c out idx _ hout _
    simp [validate_iter_loop, okOutputs, collectErrs, ← hout]
  | cons v rest ih =>
    intro c out idx hff hout hnf
    have hnfrest : ∀ u ∈ rest, nonFatal (iv u) := fun u hu => hnf u (by simp [hu])
    cases hv : iv v
    case ok a =>
      simp only [validate_iter_loop, hv, Except.mapError, filter_ok, listWrite,
        check_output_length_eq]
      refine Eq.trans (ih _ _ _ hff (by rfl) hnfrest) ?_
      simp only [okOutputs, collectErrs, hv, Except.ok.injEq, Prod.mk.injEq,
        IterableValidationChecks.mk.injEq, List.length_cons, List.length_append,
        List.length_singleton, List.length_nil, List.append_assoc,
        List.singleton_append, and_true, true_and, eq_self_iff_true]
      all_goals omega
    case error e =>
      cases he : e
      next les =>
        subst he
        simp only [validate_iter_loop, hv, Except.mapError, with_outer_lineErrors,
          filter_lineErrors_collect c hff]
        refine Eq.trans (ih _ _ _ hff (by simpa using hout) hnfrest) ?_
        simp only [okOutputs, collectErrs, hv, Except.ok.injEq, Prod.mk.injEq,
          IterableValidationChecks.mk.injEq, List.length_cons, List.append_assoc,
          and_true, true_and, eq_self_iff_true]
        all_goals omega
      next =>
        subst he
        simp only [validate_iter_loop, hv, Except.mapError, with_outer_omit, filter_omit]
        refine Eq.trans (ih _ _ _ hff (by simpa using hout) hnfrest) ?_
        simp only [okOutputs, collectErrs, hv, Except.ok.injEq, Prod.mk.injEq,
          IterableValidationChecks.mk.injEq, List.length_cons,
          and_true, true_and, eq_self_iff_true]
        all_goals omega
      next tag =>
        subst he
        exact absurd hv (hnf v (by simp) tag)

/-! Observers of `collectErrs` and `invalidIdx` when every invalid element
produces exactly one line error. -/

theorem collect_head {V A : Type} (iv : V → Except ValError A) (vs : List V) :
    ∀ idx : Nat,
      (∀ v ∈ vs, (∃ a, iv v = Except.ok a) ∨
        (∃ e, iv v = Except.error (ValError.lineErrors [e]))) →
      (collectErrs iv idx vs).map (fun le => le.location.head?) =
        (invalidIdx iv idx vs).map some := by
  induction vs with
  | nil => intro idx _; rfl
  | cons v rest ih =>
    intro idx h
    have hrest : ∀ u ∈ rest, (∃ a, iv u = Except.ok a) ∨
        (∃ e, iv u = Except.error (ValError.lineErrors [e])) :=
      fun u hu => h u (by simp [hu])
    rcases h v (by simp) with ⟨a, hv⟩ | ⟨e, hv⟩
    · simp only [collectErrs, invalidIdx, hv]
      exact ih (idx + 1) hrest
    · simp only [collectErrs, invalidIdx, hv, List.map_cons, List.map_append,
        List.map_map]
      simp only [ValLineError.with_outer_location, List.map_cons, List.map_nil,
        List.singleton_append, List.head?_cons]
      rw [ih (idx + 1) hrest]

theorem collect_len {V A : Type} (iv : V → Except ValError A) (vs : List V)
    (idx : Nat)
    (h : ∀ v ∈ vs, (∃ a, iv v = Except.ok a) ∨
      (∃ e, iv v = Except.error (ValError.lineErrors [e]))) :
    (collectErrs iv idx vs).length = (invalidIdx iv idx vs).length := by
  have hmap := congrArg List.length (collect_head iv vs idx h)
  simpa using hmap

theorem invalid_ge {V A : Type} (iv : V → Except ValError A) (vs : List V) :
    ∀ (idx j : Nat), j ∈ invalidIdx iv idx vs → idx ≤ j := by
  induction vs with
  | nil => intro idx j hj; simp [invalidIdx] at hj
  | cons v rest ih =>
    intro idx j hj
    unfold invalidIdx at hj
    cases hv : iv v
    case ok a => rw [hv] at hj; exact Nat.le_of_succ_le (ih (idx + 1) j hj)
    case error e =>
      cases he : e
      next les =>
        subst he; rw [hv] at hj
        rcases List.mem_cons.mp hj with h1 | h2
        · omega
        · exact Nat.le_of_succ_le (ih (idx + 1) j h2)
      next => subst he; rw [hv] at hj; exact Nat.le_of_succ_le (ih (idx + 1) j hj)
      next tag => subst he; rw [hv] at hj; exact Nat.le_of_succ_le (ih (idx + 1) j hj)

theorem invalid_sorted {V A : Type} (iv : V → Except ValError A) (vs : List V) :
    ∀ idx : Nat, List.Sorted (· < ·) (invalidIdx iv idx vs) := by
  induction vs with
  | nil => intro idx; simp [invalidIdx]
  | cons v rest ih =>
    intro idx
    unfold invalidIdx
    cases hv : iv v
    case ok a => exact ih (idx + 1)
    case error e =>
      cases he : e
      next les =>
        subst he
        refine List.sorted_cons.mpr ⟨?_, ih (idx + 1)⟩
        intro j hj
        have := invalid_ge iv rest (idx + 1) j hj
        omega
      next => exact ih (idx + 1)
      next tag => exact ih (idx + 1)

/-- The fallible driver's loop propagates a host-iterator error the moment
it is reached, after any all-accepted prefix. -/
theorem fallible_loop_hosterr {V A : Type} (iv : V → Except ValError A)
    (pre : List V) :
    ∀ (c : IterableValidationChecks) (out : List A) (idx : Nat) (E : ValError)
      (rest : List (Except ValError V)),
      (∀ v ∈ pre, ∃ a, iv v = Except.ok a) →
      validate_fallible_loop iv listWrite List.length c out idx
        (pre.map Except.ok ++ Except.error E :: rest) = Except.error E := by
  induction pre with
  | nil =>
    intro c out idx E rest _
    simp [validate_fallible_loop]
  | cons p pre2 ih =>
    intro c out idx E rest hpre
    obtain ⟨a, hp⟩ := hpre p (by simp)
    have hpre2 : ∀ v ∈ pre2, ∃ a, iv v = Except.ok a :=
      fun v hv => hpre v (by simp [hv])
    simp only [List.map_cons, List.cons_append, validate_fallible_loop, hp,
      Except.mapError, filter_ok, listWrite, check_output_length_eq]
    exact ih _ _ _ _ _ hpre2

theorem isEmpty_append_singleton {α : Type} (l : List α) (x : α) :
    (l ++ [x]).isEmpty = false := by
  cases l <;> rfl

theorem isEmpty_false_of_ne {α : Type} (l : List α) (h : l ≠ []) :
    l.isEmpty = false := by
  cases l
  · exact absurd rfl h
  · rfl

/-- An item validator used to instantiate the claims on concrete inputs:
accepts even numbers and rejects odd ones with a single line error. -/
def wItems : Nat → Except ValError Nat := fun v =>
  if v % 2 = 0 then Except.ok v
  else Except.error (ValError.lineErrors [{ error_type := ErrorType.other v, location := [] }])

/-- An item validator that signals omission for every element. -/
def wOmit : Nat → Except ValError Nat := fun _ => Except.error ValError.omit

/-! The claims. -/

/-- Claim C10: `calculate_output_init_capacity` returns 0 when the iterator
size is unknown, the iterator size when known with no max_length, and the
minimum of the two when both are known, so it never exceeds either bound. -/
theorem calculate_output_init_capacity_spec :
    (∀ m : Option Nat, calculate_output_init_capacity none m = 0) ∧
    (∀ l : Nat, calculate_output_init_capacity (some l) none = l) ∧
    (∀ l r : Nat, calculate_output_init_capacity (some l) (some r) = min l r) ∧
    (∀ (l : Nat) (m : Option Nat), calculate_output_init_capacity (some l) m ≤ l) ∧
    (∀ (s : Option Nat) (r : Nat), calculate_output_init_capacity s (some r) ≤ r) := by
  refine ⟨fun _ => rfl, fun _ => rfl, fun _ _ => rfl, ?_, ?_⟩
  · intro l m
    cases m
    · exact Nat.le_refl l
    · exact Nat.min_le_left _ _
  · intro s r
    cases s
    · exact Nat.zero_le r
    · exact Nat.min_le_right _ _

/-- Claim C1 (refuted by the code as written): `check_max_length` returns
`Ok(())` on both branches of the comparison, so validation over an input
whose raw length exceeds `max_input_length` (here 2 elements against a
bound of 1) completes a full pass over all elements and succeeds, instead
of terminating with a too-long failure. -/
theorem incremental_max_length_check_is_noop :
    (∀ (c : IterableValidationChecks) (current_length max_length : Nat),
      c.check_max_length current_length max_length = Except.ok ()) ∧
    validate_infallible_iterator
        (IterableValidationChecks.new false
          { min_length := 0, max_length := none, max_input_length := some 1 } "list")
        [0, 1] (fun v : Nat => Except.ok v) ([] : List Nat) listWrite List.length =
      Except.ok [0, 1] :=
  ⟨check_max_length_eq, rfl⟩

/-- Claim C6: `finish` appends a too-short error exactly when the final
output length is below `min_length`; it returns Ok iff no errors were ever
recorded and no too-short error was just added, and otherwise returns the
full ordered aggregate, including any too-short error just appended. -/
theorem finish_characterization (c : IterableValidationChecks) :
    ((c.finish).2 = Except.ok () ↔ c.errors = [] ∧ c.min_length ≤ c.output_length) ∧
    (c.output_length < c.min_length →
      (c.finish).2 = Except.error (ValError.lineErrors (c.errors ++
        [{ error_type := ErrorType.tooShort c.field_type c.min_length c.output_length,
           location := [] }]))) ∧
    (c.min_length ≤ c.output_length → c.errors ≠ [] →
      (c.finish).2 = Except.error (ValError.lineErrors c.errors)) := by
  refine ⟨?_, ?_, ?_⟩
  · by_cases hmin : c.min_length > c.output_length
    · unfold IterableValidationChecks.finish
      rw [if_pos hmin]
      simp only [isEmpty_append_singleton, Bool.false_eq_true, if_false]
      constructor
      · intro h
        exact absurd h (by simp)
      · rintro ⟨_, hle⟩
        exact absurd hmin (Nat.not_lt.mpr hle)
    · have hle : c.min_length ≤ c.output_length := Nat.not_lt.mp hmin
      unfold IterableValidationChecks.finish
      rw [if_neg hmin]
      by_cases herr : c.errors = []
      · simp [herr, hle]
      · simp only [isEmpty_false_of_ne _ herr, Bool.false_eq_true, if_false]
        constructor
        · intro h
          exact absurd h (by simp)
        · rintro ⟨hnil, _⟩
          exact absurd hnil herr
  · intro hlt
    unfold IterableValidationChecks.finish
    rw [if_pos hlt]
    simp only [isEmpty_append_singleton, Bool.false_eq_true, if_false]
  · intro hle herr
    unfold IterableValidationChecks.finish
    rw [if_neg (Nat.not_lt.mpr hle)]
    simp only [isEmpty_false_of_ne _ herr, Bool.false_eq_true, if_false]

/-- Witness for C6: a state with one output short of its minimum gets the
too-short error appended to its (empty) aggregate, and a state meeting its
minimum with a recorded error returns just that aggregate. -/
theorem finish_characterization_witness :
    (({ input_length := 1, output_length := 0, fail_fast := false, min_length := 1,
        max_length := none, max_input_length := none, field_type := "list",
        errors := [] } : IterableValidationChecks).finish).2 =
      Except.error (ValError.lineErrors
        [{ error_type := ErrorType.tooShort "list" 1 0, location := [] }]) ∧
    (({ input_length := 1, output_length := 2, fail_fast := false, min_length := 1,
        max_length := none, max_input_length := none, field_type := "list",
        errors := [{ error_type := ErrorType.other 7, location := [0] }] } :
          IterableValidationChecks).finish).2 =
      Except.error (ValError.lineErrors
        [{ error_type := ErrorType.other 7, location := [0] }]) :=
  ⟨(finish_characterization _).2.1 (by decide),
   (finish_characterization _).2.2 (by decide) (by simp)⟩

/-- Claim C8: validating the set `{1, 2, 3}` through a set validator with no
item schema and no bounds succeeds with an equivalent set containing exactly
the elements 1, 2 and 3. -/
theorem set_round_trip :
    ∃ out : List Nat,
      SetValidator._validation_logic
          (⟨false, none, none, none⟩ : SetValidator Nat) [1, 2, 3] =
        Except.ok out ∧
      ∀ x : Nat, x ∈ out ↔ x = 1 ∨ x = 2 ∨ x = 3 := by
  refine ⟨[1, 2, 3], by rfl, ?_⟩
  intro x
  simp

/-- Claim C3: with `fail_fast = true` and at least two invalid elements in
the input, validation returns exactly one Line Error, the one produced by
the first invalid element in iteration order (tagged with its index), and
the result does not depend on the elements after it. -/
theorem fail_fast_returns_first_error {V A : Type} (iv : V → Except ValError A)
    (pre rest : List V) (bad : V) (e : ValLineError)
    (lc : LengthConstraints) (ft : String)
    (hpre : ∀ v ∈ pre, ∃ a, iv v = Except.ok a)
    (hbad : iv bad = Except.error (ValError.lineErrors [e]))
    (hmore : ∃ u ∈ rest, ∃ les, iv u = Except.error (ValError.lineErrors les)) :
    validate_infallible_iterator (IterableValidationChecks.new true lc ft)
        (pre ++ bad :: rest) iv ([] : List A) listWrite List.length =
      Except.error (ValError.lineErrors
        [{ e with location := pre.length :: e.location }]) := by
  unfold validate_infallible_iterator
  rw [loop_ff iv [e] bad rest pre _ _ _ rfl hpre hbad]
  simp [ValLineError.with_outer_location]

/-- Witness for C3: with elements `[0, 1, 3]`, where 1 and 3 are both
invalid, fail-fast validation returns only the error of element 1 at
location `[1]`. -/
theorem fail_fast_returns_first_error_witness :
    validate_infallible_iterator
        (IterableValidationChecks.new true ⟨0, none, none⟩ "list")
        [0, 1, 3] wItems ([] : List Nat) listWrite List.length =
      Except.error (ValError.lineErrors
        [{ error_type := ErrorType.other 1, location := [1] }]) :=
  fail_fast_returns_first_error wItems [0] [3] 1
    { error_type := ErrorType.other 1, location := [] } ⟨0, none, none⟩ "list"
    (by
      intro v hv
      rw [List.mem_singleton] at hv
      subst hv
      exact ⟨0, rfl⟩)
    (by rfl)
    ⟨3, by simp, [{ error_type := ErrorType.other 3, location := [] }], by rfl⟩

/-- Claim C4: with `fail_fast = false` over elements of which exactly those
at `invalidIdx` are invalid (each producing one line error), validation
returns exactly that many Line Errors, each carrying its originating index
as the outermost location segment, in ascending index order. -/
theorem collect_all_errors_located {V A : Type} (iv : V → Except ValError A)
    (vs : List V) (mx mi : Option Nat) (ft : String)
    (hshape : ∀ v ∈ vs, (∃ a, iv v = Except.ok a) ∨
      (∃ e, iv v = Except.error (ValError.lineErrors [e])))
    (hinv : invalidIdx iv 0 vs ≠ []) :
    validate_infallible_iterator (IterableValidationChecks.new false ⟨0, mx, mi⟩ ft)
        vs iv ([] : List A) listWrite List.length =
      Except.error (ValError.lineErrors (collectErrs iv 0 vs)) ∧
    (collectErrs iv 0 vs).length = (invalidIdx iv 0 vs).length ∧
    (collectErrs iv 0 vs).map (fun le => le.location.head?) =
      (invalidIdx iv 0 vs).map some ∧
    List.Sorted (· < ·) (invalidIdx iv 0 vs) := by
  have hnf : ∀ v ∈ vs, nonFatal (iv v) := by
    intro v hv tag hcontra
    rcases hshape v hv with ⟨a, ha⟩ | ⟨e, he⟩
    · rw [ha] at hcontra
      exact Except.noConfusion hcontra
    · rw [he] at hcontra
      exact ValError.noConfusion (Except.error.inj hcontra)
  have hne : collectErrs iv 0 vs ≠ [] := by
    intro hnil
    apply hinv
    have hlen := collect_len iv vs 0 hshape
    rw [hnil] at hlen
    exact List.eq_nil_of_length_eq_zero hlen.symm
  refine ⟨?_, collect_len iv vs 0 hshape, collect_head iv vs 0 hshape,
    invalid_sorted iv vs 0⟩
  unfold validate_infallible_iterator
  rw [loop_collect iv vs _ _ _ rfl rfl hnf]
  simp only [IterableValidationChecks.finish, IterableValidationChecks.new,
    List.nil_append, Nat.zero_add, gt_iff_lt, Nat.not_lt_zero, if_false,
    isEmpty_false_of_ne _ hne, Bool.false_eq_true]

/-- Witness for C4: with elements `[0, 1, 2, 3]`, of which 1 and 3 are
invalid, collect-all validation returns the two errors at locations `[1]`
and `[3]`, in that order. -/
theorem collect_all_errors_located_witness :
    validate_infallible_iterator
        (IterableValidationChecks.new false ⟨0, none, none⟩ "list")
        [0, 1, 2, 3] wItems ([] : List Nat) listWrite List.length =
      Except.error (ValError.lineErrors
        [{ error_type := ErrorType.other 1, location := [1] },
         { error_type := ErrorType.other 3, location := [3] }]) :=
  (collect_all_errors_located wItems [0, 1, 2, 3] none none "list"
    (by
      intro v hv
      fin_cases hv
      · exact Or.inl ⟨0, rfl⟩
      · exact Or.inr ⟨{ error_type := ErrorType.other 1, location := [] }, rfl⟩
      · exact Or.inl ⟨2, rfl⟩
      · exact Or.inr ⟨{ error_type := ErrorType.other 3, location := [] }, rfl⟩)
    (by decide)).1

/-- Claim C5: over a non-empty input whose every element is omitted, a
container with `min_length = 1` fails with exactly one too-short error and
zero per-element errors, in either fail-fast mode. -/
theorem omit_all_yields_too_short {V A : Type} (iv : V → Except ValError A)
    (vs : List V) (ff : Bool) (mx mi : Option Nat) (ft : String)
    (hne : vs ≠ [])
    (homit : ∀ v ∈ vs, iv v = Except.error ValError.omit) :
    validate_infallible_iterator (IterableValidationChecks.new ff ⟨1, mx, mi⟩ ft)
        vs iv ([] : List A) listWrite List.length =
      Except.error (ValError.lineErrors
        [{ error_type := ErrorType.tooShort ft 1 0, location := [] }]) := by
  unfold validate_infallible_iterator
  rw [loop_omit iv vs _ _ _ homit]
  rfl

/-- Witness for C5: one element, always omitted, against `min_length = 1`. -/
theorem omit_all_yields_too_short_witness :
    validate_infallible_iterator
        (IterableValidationChecks.new false ⟨1, none, none⟩ "set")
        [42] wOmit ([] : List Nat) listWrite List.length =
      Except.error (ValError.lineErrors
        [{ error_type := ErrorType.tooShort "set" 1 0, location := [] }]) :=
  omit_all_yields_too_short wOmit [42] false none none "set" (by simp)
    (fun _ _ => rfl)

/-- Claim C9: in `validate_fallible_iterator`, a host-iterator error is
propagated immediately as the result of the whole call when its step is
reached, before the item validator runs on that element (the conclusion
holds for every item validator), regardless of the fail-fast setting and
of the elements after it, and without entering the per-element aggregate. -/
theorem fallible_iterator_propagates_host_error {V A : Type}
    (iv : V → Except ValError A) (pre : List V)
    (rest : List (Except ValError V)) (E : ValError)
    (c : IterableValidationChecks) (out0 : List A)
    (hpre : ∀ v ∈ pre, ∃ a, iv v = Except.ok a) :
    validate_fallible_iterator c (pre.map Except.ok ++ Except.error E :: rest) iv
        out0 listWrite List.length = Except.error E := by
  unfold validate_fallible_iterator
  rw [fallible_loop_hosterr iv pre _ _ _ _ _ hpre]

/-- Witness for C9: a host error after one valid element aborts the whole
call with that error, also under fail-fast. -/
theorem fallible_iterator_propagates_host_error_witness :
    validate_fallible_iterator
        (IterableValidationChecks.new true ⟨0, none, none⟩ "list")
        [Except.ok 0, Except.error (ValError.internalErr 9), Except.ok 1]
        (fun v : Nat => Except.ok v) ([] : List Nat) listWrite List.length =
      Except.error (ValError.internalErr 9) :=
  fallible_iterator_propagates_host_error (fun v : Nat => Except.ok v) [0]
    [Except.ok 1] (ValError.internalErr 9)
    (IterableValidationChecks.new true ⟨0, none, none⟩ "list") []
    (fun v _ => ⟨v, rfl⟩)

/-- Counterexample to claim C2 as stated: the SetValidator's early
raw-length rejection (min_items = 2 against a one-element input) produces
a too-short error whose context holds only the configured bound
`min_length`; no `actual_length` entry with the observed size is present. -/
theorem set_too_short_context_lacks_actual_length :
    ∃ ctx : List (String × Nat),
      SetValidator._validation_logic
          (⟨false, none, some 2, none⟩ : SetValidator Nat) [5] =
        Except.error (SetValError.lineErrors
          [{ kind := SetErrorKind.setTooShort, context := ctx }]) ∧
      ctx.map Prod.fst = ["min_length"] ∧
      ∀ n : Nat, ("actual_length", n) ∉ ctx := by
  refine ⟨[("min_length", 2)], by rfl, by rfl, ?_⟩
  intro n h
  rw [List.mem_singleton] at h
  simp at h

/-- Claim C2 as amended: when the length after removing omitted and invalid
elements is below `min_length`, the error appended by
`IterableValidationChecks::finish` carries both the configured bound
(`min_length`) and the observed size (`actual_length`) in its structured
context; the SetValidator's early raw-length rejection also fails with a
too-short error, but its context carries only the configured bound. -/
theorem too_short_error_contexts {V A : Type} (iv : V → Except ValError A)
    (vs : List V) (minl : Nat) (mx mi : Option Nat) (ft : String)
    (hshape : ∀ v ∈ vs, nonFatal (iv v))
    (hshort : (okOutputs iv vs).length < minl) :
    validate_infallible_iterator
        (IterableValidationChecks.new false ⟨minl, mx, mi⟩ ft)
        vs iv ([] : List A) listWrite List.length =
      Except.error (ValError.lineErrors (collectErrs iv 0 vs ++
        [{ error_type := ErrorType.tooShort ft minl (okOutputs iv vs).length,
           location := [] }])) ∧
    (∀ (Val : Type) (inst : DecidableEq Val) (strict : Bool)
        (itemv : Option (Val → Except SetValError Val)) (maxi : Option Nat)
        (l : List Val), l.length < minl →
      SetValidator._validation_logic
          (⟨strict, itemv, some minl, maxi⟩ : SetValidator Val) l =
        Except.error (SetValError.lineErrors
          [{ kind := SetErrorKind.setTooShort, context := [("min_length", minl)] }])) := by
  constructor
  · unfold validate_infallible_iterator
    rw [loop_collect iv vs _ _ _ rfl rfl hshape]
    simp only [IterableValidationChecks.finish, IterableValidationChecks.new,
      List.nil_append, List.length_nil, Nat.zero_add, gt_iff_lt, hshort, if_true,
      isEmpty_append_singleton, Bool.false_eq_true, if_false]
  · intro Val inst strict itemv maxi l hl
    simp only [SetValidator._validation_logic, generic_len, check_min_items,
      if_pos hl]

/-- Witness for C2 (amended): one invalid element against `min_length = 2`
yields the element's error and a too-short error with bound 2 and observed
size 0; a one-element set against `min_items = 2` yields the bound-only
context. -/
theorem too_short_error_contexts_witness :
    (validate_infallible_iterator
        (IterableValidationChecks.new false ⟨2, none, none⟩ "list")
        [1] wItems ([] : List Nat) listWrite List.length =
      Except.error (ValError.lineErrors
        [{ error_type := ErrorType.other 1, location := [0] },
         { error_type := ErrorType.tooShort "list" 2 0, location := [] }])) ∧
    SetValidator._validation_logic
        (⟨false, none, some 2, none⟩ : SetValidator Nat) [5] =
      Except.error (SetValError.lineErrors
        [{ kind := SetErrorKind.setTooShort, context := [("min_length", 2)] }]) := by
  have h := too_short_error_contexts wItems [1] 2 none none "list"
    (by
      intro v hv tag hcontra
      rw [List.mem_singleton] at hv
      subst hv
      exact ValError.noConfusion (Except.error.inj hcontra))
    (by decide)
  exact ⟨h.1, h.2 Nat instDecidableEqNat false none none [5] (by decide)⟩

/-- Claim C7: a SetValidator with `min_items = 2` and `max_items = 2`
accepts any input of exactly 2 elements, rejects a 1-element input with a
too-short error carrying bound 2, and rejects a 3-element input with a
too-long error carrying bound 2. -/
theorem set_boundary_two {Val : Type} [inst : DecidableEq Val]
    (l1 l2 l3 : List Val)
    (h1 : l1.length = 1) (h2 : l2.length = 2) (h3 : l3.length = 3) :
    (∃ out, SetValidator._validation_logic
        (⟨false, none, some 2, some 2⟩ : SetValidator Val) l2 = Except.ok out) ∧
    SetValidator._validation_logic
        (⟨false, none, some 2, some 2⟩ : SetValidator Val) l1 =
      Except.error (SetValError.lineErrors
        [{ kind := SetErrorKind.setTooShort, context := [("min_length", 2)] }]) ∧
    SetValidator._validation_logic
        (⟨false, none, some 2, some 2⟩ : SetValidator Val) l3 =
      Except.error (SetValError.lineErrors
        [{ kind := SetErrorKind.setTooLong, context := [("max_length", 2)] }]) := by
  refine ⟨⟨pySet_new (copy_to_vec l2), ?_⟩, ?_, ?_⟩ <;>
    simp [SetValidator._validation_logic, check_min_items, check_max_items,
      generic_len, h1, h2, h3]

/-- Witness for C7 at concrete inputs `[7]`, `[1, 2]`, `[1, 2, 3]`. -/
theorem set_boundary_two_witness :
    (∃ out, SetValidator._validation_logic
        (⟨false, none, some 2, some 2⟩ : SetValidator Nat) [1, 2] =
      Except.ok out) ∧
    SetValidator._validation_logic
        (⟨false, none, some 2, some 2⟩ : SetValidator Nat) [7] =
      Except.error (SetValError.lineErrors
        [{ kind := SetErrorKind.setTooShort, context := [("min_length", 2)] }]) ∧
    SetValidator._validation_logic
        (⟨false, none, some 2, some 2⟩ : SetValidator Nat) [1, 2, 3] =
      Except.error (SetValError.lineErrors
        [{ kind := SetErrorKind.setTooLong, context := [("max_length", 2)] }]) :=
  set_boundary_two [7] [1, 2] [1, 2, 3] rfl rfl rfl

end PydanticCore
